import Mathlib

/-!
Verification of the expense-bot extraction pipeline
(`src/BotSpese/expense_bot.py`) against its natural-language
specification.

The Python module is shallowly embedded below.  Texts are `List Char`.
Python `str.lower` is modelled on the ASCII range (`lowerChar`); the
regular expression `PRICE_RE = (\d+[\.,]?\d*)\s?(?:€|euro?)` with the
`re.I` flag is embedded as an executable leftmost-match scanner
(`searchPrice`); `\d` is modelled as the ASCII digits and `\s` as the six
ASCII whitespace characters.  Python `float` results are modelled as
exact rationals.  External collaborators (the GPT summarization call,
the Notion write, the Telegram download and the Whisper transcription)
are oracles carried in an `Env` record, and every externally visible
action of the pipeline is recorded in an event trace so that temporal
claims (which call happens, in which order, on which path) can be
stated and proved.
-/

namespace BotSpese

/-- ASCII model of Python `str.lower` on a single character:
letters `A`..`Z` (codes 65..90) are shifted by 32, everything else is
kept unchanged. -/
def lowerChar (c : Char) : Char :=
  if 65 ≤ c.toNat ∧ c.toNat ≤ 90 then Char.ofNat (c.toNat + 32) else c

/-- ASCII model of Python `str.upper` on a single character (used by
`str.capitalize`). -/
def upperChar (c : Char) : Char :=
  if 97 ≤ c.toNat ∧ c.toNat ≤ 122 then Char.ofNat (c.toNat - 32) else c

/-- Python `t.lower()` applied to a whole text. -/
def lowerL (t : List Char) : List Char := t.map lowerChar

/-- The regex class `\d`: ASCII digits `0`..`9` (codes 48..57). -/
def isDigitC (c : Char) : Bool := decide (48 ≤ c.toNat ∧ c.toNat ≤ 57)

/-- The decimal-separator class `[\.,]` of `PRICE_RE`:
a full stop (code 46) or a comma (code 44). -/
def isSepC (c : Char) : Bool := decide (c.toNat = 46 ∨ c.toNat = 44)

/-- The regex class `\s`, modelled as the six ASCII whitespace
characters: space, tab, newline, carriage return, vertical tab and
form feed. -/
def isSpaceC (c : Char) : Bool :=
  decide (c.toNat = 32 ∨ c.toNat = 9 ∨ c.toNat = 10 ∨ c.toNat = 13 ∨
    c.toNat = 11 ∨ c.toNat = 12)

/-- The euro sign `€` (code 8364). -/
def isEuroC (c : Char) : Bool := decide (c.toNat = 8364)

/-- Case-insensitive test for the letter `e` (the `re.I` flag of
`PRICE_RE`). -/
def isLtrE (c : Char) : Bool := decide ((lowerChar c).toNat = 101)

/-- Case-insensitive test for the letter `u`. -/
def isLtrU (c : Char) : Bool := decide ((lowerChar c).toNat = 117)

/-- Case-insensitive test for the letter `r`. -/
def isLtrR (c : Char) : Bool := decide ((lowerChar c).toNat = 114)

/-- Case-insensitive test for the letter `o`. -/
def isLtrO (c : Char) : Bool := decide ((lowerChar c).toNat = 111)

/-!
Section: The amount pattern

`PRICE_RE = re.compile(r"(\d+[\.,]?\d*)\s?(?:€|euro?)", re.I)` and
`get_price(t) = float(m.group(1).replace(",", ".")) if m else None`
where `m = PRICE_RE.search(t)`.

`matchNum` matches the capture group `\d+[\.,]?\d*` at the head of a
suffix and returns the group together with the remaining text;
`currencyAt` matches the alternation `(?:€|euro?)`, which accepts the
euro sign or the letters `eur` with an optional trailing `o`;
`skipSpaceOpt` consumes the optional whitespace `\s?`.  Backtracking
inside the group cannot change the outcome here, because a digit or a
separator given back by a greedy sub-pattern can never match `\s` or
the start of the currency alternation, so the greedy parse below is
exactly the Python match.  `searchPrice` is `re.search`: it tries every
start position from the left and returns the capture group of the first
position at which the whole pattern matches.
-/

/-- Match the capture group `\d+[\.,]?\d*` at the head of `l`; return
the group and the rest of the text. -/
def matchNum (l : List Char) : Option (List Char × List Char) :=
  if (l.takeWhile isDigitC).isEmpty then none
  else
    match l.dropWhile isDigitC with
    | [] => some (l.takeWhile isDigitC, [])
    | c :: r2 =>
      if isSepC c then
        some (l.takeWhile isDigitC ++ c :: r2.takeWhile isDigitC, r2.dropWhile isDigitC)
      else some (l.takeWhile isDigitC, c :: r2)

/-- Match the alternation `(?:€|euro?)` at the head of `l` (under
`re.I`): the euro sign, or the letters `e`, `u`, `r` (the final `o` is
optional, so it is not tested). -/
def currencyAt (l : List Char) : Bool :=
  match l with
  | [] => false
  | c :: rest =>
    if isEuroC c then true
    else
      match rest with
      | c2 :: c3 :: _ => isLtrE c && isLtrU c2 && isLtrR c3
      | _ => false

/-- Consume the optional whitespace `\s?`.  The currency alternation
can never start with a whitespace character, so consuming greedily is
exact. -/
def skipSpaceOpt (l : List Char) : List Char :=
  match l with
  | c :: rest => if isSpaceC c then rest else c :: rest
  | [] => []

/-- Try to match the whole of `PRICE_RE` at the head of `l`; return the
capture group on success. -/
def matchSuffix (l : List Char) : Option (List Char) :=
  match matchNum l with
  | none => none
  | some (g, r) => if currencyAt (skipSpaceOpt r) then some g else none

/-- `re.search` for `PRICE_RE`: scan start positions from the left and
return the capture group of the leftmost successful match. -/
def searchPrice : List Char → Option (List Char)
  | [] => none
  | c :: cs =>
    match matchSuffix (c :: cs) with
    | some g => some g
    | none => searchPrice cs

/-- Numeric value of a digit string. -/
def digitsVal (l : List Char) : Nat := l.foldl (fun a c => a * 10 + (c.toNat - 48)) 0

/-- Python `float(group.replace(",", "."))` on a capture group of
`PRICE_RE`, modelled exactly as a rational: integer part, then the
optional fractional digits scaled by a power of ten.  A group ending in
a bare separator (such as `12.`) parses like Python `float` does, to
the integer part. -/
def parseAmount (g : List Char) : ℚ :=
  let d1 := g.takeWhile isDigitC
  let r := g.dropWhile isDigitC
  match r with
  | [] => (digitsVal d1 : ℚ)
  | _ :: d2 => (digitsVal d1 : ℚ) + (digitsVal d2 : ℚ) / (10 : ℚ) ^ d2.length

/-- `get_price` from the source: search `PRICE_RE`, normalize the
separator, parse the capture group; `none` when the regex does not
match. -/
def get_price (t : List Char) : Option ℚ := (searchPrice t).map parseAmount

/-!
Section: The amount pattern as the specification words it

The spec describes the currency marker as a currency symbol or the
word "euro"/"euros" (case-insensitive).  The definitions below follow
the specification text, to be compared with the source-derived matcher
above; they differ from it only in the currency alternation, which here
requires the four letters `euro` in full ("euros" begins with "euro",
so it needs no separate case).
-/

/-- Modelled from the spec: the currency marker is the euro sign or
the word `euro` (or `euros`, which starts with it), case-insensitive. -/
def specCurrencyAt (l : List Char) : Bool :=
  match l with
  | [] => false
  | c :: rest =>
    if isEuroC c then true
    else
      match rest with
      | c2 :: c3 :: c4 :: _ => isLtrE c && isLtrU c2 && isLtrR c3 && isLtrO c4
      | _ => false

/-- Modelled from the spec: a number immediately followed (up to one
whitespace character) by the spec currency marker. -/
def specMatchSuffix (l : List Char) : Option (List Char) :=
  match matchNum l with
  | none => none
  | some (g, r) => if specCurrencyAt (skipSpaceOpt r) then some g else none

/-- Modelled from the spec: leftmost occurrence of the spec amount
pattern. -/
def specSearch : List Char → Option (List Char)
  | [] => none
  | c :: cs =>
    match specMatchSuffix (c :: cs) with
    | some g => some g
    | none => specSearch cs

/-!
Section: Keyword classifiers

`CATEGORY_KEYWORDS` and `PAYMENT_KEYWORDS` are Python dicts with
distinct literal keys; iteration order is insertion order, so they are
embedded as association lists in source order.  `k in t.lower()` is
Python substring containment, embedded as `isSubstr`.
-/

/-- Python substring containment `k in t`: `k` occurs contiguously in
`t` (the empty string is contained in everything). -/
def isSubstr : List Char → List Char → Bool
  | k, [] => k.isEmpty
  | k, c :: cs => k.isPrefixOf (c :: cs) || isSubstr k cs

/-- The category keyword table, in source order. -/
def CATEGORY_KEYWORDS : List (List Char × List Char) :=
  [("supermercato".toList, "Cibo".toList), ("spesa".toList, "Cibo".toList),
   ("bar".toList, "Cibo".toList), ("ristorante".toList, "Cibo".toList),
   ("latte".toList, "Cibo".toList),
   ("amazon".toList, "Shopping".toList), ("scarpe".toList, "Shopping".toList),
   ("vestiti".toList, "Shopping".toList),
   ("cinema".toList, "Divertimento".toList), ("concerto".toList, "Divertimento".toList),
   ("biglietto".toList, "Divertimento".toList),
   ("palestra".toList, "Sport e salute".toList), ("farmacia".toList, "Sport e salute".toList),
   ("treno".toList, "Trasporti".toList), ("taxi".toList, "Trasporti".toList),
   ("benzina".toList, "Trasporti".toList),
   ("hotel".toList, "Viaggi".toList), ("volo".toList, "Viaggi".toList)]

/-- The payment keyword table, in source order. -/
def PAYMENT_KEYWORDS : List (List Char × List Char) :=
  [("contanti".toList, "Contanti".toList), ("cash".toList, "Contanti".toList),
   ("bancomat".toList, "Carta".toList), ("carta".toList, "Carta".toList),
   ("credito".toList, "Carta".toList), ("debito".toList, "Carta".toList),
   ("paypal".toList, "Carta".toList), ("satispay".toList, "Carta".toList)]

/-- `next((v for k, v in tbl.items() if k in t.lower()), deflt)`:
the value of the first table entry whose key is a substring of the
lowercased text, else the default. -/
def matchKeyword (tbl : List (List Char × List Char)) (deflt : List Char)
    (t : List Char) : List Char :=
  match tbl.find? (fun kv => isSubstr kv.1 (lowerL t)) with
  | some kv => kv.2
  | none => deflt

/-- `get_category` from the source. -/
def get_category (t : List Char) : List Char :=
  matchKeyword CATEGORY_KEYWORDS ("Altro".toList) t

/-- `get_payment` from the source. -/
def get_payment (t : List Char) : List Char :=
  matchKeyword PAYMENT_KEYWORDS ("Carta".toList) t

/-!
Section: Dates, the partition table and the external environment
-/

/-- A calendar date, as used by `dt.datetime.today()`. -/
structure DateT where
  day : Nat
  month : Nat
  year : Nat
deriving DecidableEq

/-- `dt.datetime.today().strftime("%m-%Y")`: the month zero-padded to
two digits, a dash, the year. -/
def monthKey (d : DateT) : List Char :=
  (if d.month < 10 then '0' :: Nat.toDigits 10 d.month else Nat.toDigits 10 d.month)
    ++ '-' :: Nat.toDigits 10 d.year

/-- Exact-match lookup in an association list, as Python `dict.get`
(dict keys are unique, so first match is the match). -/
def lookupL : List (List Char × List Char) → List Char → Option (List Char)
  | [], _ => none
  | kv :: rest, k => if kv.1 = k then some kv.2 else lookupL rest k

/-- The `DB_IDS_BY_MONTH` table from the source. -/
def DB_IDS_BY_MONTH : List (List Char × List Char) :=
  [("07-2025".toList, "22b2ddb994ba81dba631d8415085778b".toList),
   ("08-2025".toList, "22b2ddb994ba807ca890d78a0f67387a".toList),
   ("09-2025".toList, "22b2ddb994ba80838abec2185a953463".toList)]

/-- The external world of one ingestion: the current date, the
partition table, and oracles for the outcome of each external call
(GPT summarization, the Notion page write, the Telegram voice download
and the Whisper transcription). -/
structure Env where
  today : DateT
  dbIds : List (List Char × List Char)
  gpt : List Char → Except Unit (List Char)
  notionOk : Bool
  download : Except Unit Unit
  transcript : Except Unit (List Char)

/-- `current_db_id` from the source: format the current date as
`MM-YYYY` and look it up in the partition table. -/
def current_db_id (env : Env) : Option (List Char) :=
  lookupL env.dbIds (monthKey env.today)

/-!
Section: Records, events and errors
-/

/-- The property bundle built by `parse_text` (the ExpenseCandidate of
the spec): optional amount, payment method, category, description, in
the order the dict literal computes them. -/
structure ParsedData where
  price : Option ℚ
  pay : List Char
  cat : List Char
  desc : List Char
deriving DecidableEq

/-- The Notion page created by `save_expense` (the LedgerRecord of the
spec): target partition, title, amount, ingestion date, category,
payment method. -/
structure Rec where
  db : List Char
  name : List Char
  price : Option ℚ
  date : DateT
  cat : List Char
  pay : List Char
deriving DecidableEq

/-- Errors that `save_expense` can raise: the missing-partition
configuration error, or a failure of the Notion create call. -/
inductive SaveError where
  | configError : SaveError
  | notionError : SaveError
deriving DecidableEq

/-- Errors that `handle_voice` can propagate: a failure while staging
the voice file, a failure of conversion or transcription, or an error
escaping `ingest`. -/
inductive VoiceErr where
  | downloadFailed : VoiceErr
  | transcribeFailed : VoiceErr
  | saveFailed : SaveError → VoiceErr
deriving DecidableEq

/-- Externally visible actions of one pipeline run, in order: the GPT
summarization request, the partition lookup, the Notion create call,
a Telegram reply, and acquisition and release of the temporary audio
directory. -/
inductive Event where
  | summarize : List Char → Event
  | partitionLookup : List Char → Event
  | notionCreate : Rec → Event
  | reply : List Char → Event
  | tmpAcquire : Event
  | tmpRelease : Event
deriving DecidableEq

/-- The reply sent when no amount is recognized. -/
def msgNotRecognized : List Char := "Importo non riconosciuto ✖️".toList

/-- The reply sent after a successful write. -/
def msgRecorded : List Char := "Spesa registrata ✅".toList

/-- The replies of a trace, in order: the outcomes reported to the
caller. -/
def repliesOf (tr : List Event) : List (List Char) :=
  tr.filterMap (fun e =>
    match e with
    | Event.reply m => some m
    | _ => none)

/-!
Section: The summarizer adapter
-/

/-- Python `string.punctuation`, by character code. -/
def punctCodes : List Nat :=
  [33, 34, 35, 36, 37, 38, 39, 40, 41, 42, 43, 44, 45, 46, 47,
   58, 59, 60, 61, 62, 63, 64, 91, 92, 93, 94, 95, 96, 123, 124, 125, 126]

/-- Membership in `string.punctuation`. -/
def isPunctC (c : Char) : Bool := punctCodes.contains c.toNat

/-- Python `s.strip(...)` for a character class: drop matching
characters from both ends. -/
def stripBy (p : Char → Bool) (l : List Char) : List Char :=
  ((l.dropWhile p).reverse.dropWhile p).reverse

/-- Python `s.capitalize()` (ASCII model): first character uppercased,
the rest lowercased. -/
def capitalizeL : List Char → List Char
  | [] => []
  | c :: cs => upperChar c :: cs.map lowerChar

/-- The fallback phrase of the summarizer adapter. -/
def spesa : List Char := "Spesa".toList

/-- The prompt built by `compact_desc`: embedded line breaks collapsed
to spaces, wrapped in the fixed Italian instruction. -/
def mkPrompt (t : List Char) : List Char :=
  "Testo: \"".toList ++ t.map (fun c => if c = '\n' then ' ' else c)
    ++ "\". Oggetto acquistato (max 3 parole)?".toList

/-- `compact_desc` from the source: call GPT on the prompt; on success
strip whitespace then punctuation from the response, capitalize it, and
fall back to `"Spesa"` when that leaves the empty string; on any error
fall back to `"Spesa"`.  The returned trace records the external call,
which is made on every path. -/
def compact_desc (env : Env) (t : List Char) : List Char × List Event :=
  match env.gpt (mkPrompt t) with
  | Except.ok content =>
    let d := capitalizeL (stripBy isPunctC (stripBy isSpaceC content))
    (if d.isEmpty then spesa else d, [Event.summarize (mkPrompt t)])
  | Except.error _ => (spesa, [Event.summarize (mkPrompt t)])

/-!
Section: The pipeline
-/

/-- `parse_text` from the source: amount, payment, category, then the
summarized description, assembled unconditionally. -/
def parse_text (env : Env) (t : List Char) : ParsedData × List Event :=
  (⟨get_price t, get_payment t, get_category t, (compact_desc env t).1⟩,
   (compact_desc env t).2)

/-- `save_expense` from the source: resolve the current partition; if
none is configured raise the configuration error, otherwise submit the
create-record call (which may itself fail). -/
def save_expense (env : Env) (props : ParsedData) :
    Except SaveError Unit × List Event :=
  match current_db_id env with
  | none =>
    (Except.error SaveError.configError, [Event.partitionLookup (monthKey env.today)])
  | some dbId =>
    let r0 : Rec := ⟨dbId, props.desc, props.price, env.today, props.cat, props.pay⟩
    if env.notionOk then
      (Except.ok (), [Event.partitionLookup (monthKey env.today), Event.notionCreate r0])
    else
      (Except.error SaveError.notionError,
       [Event.partitionLookup (monthKey env.today), Event.notionCreate r0])

/-- `ingest` from the source: parse the text; if no amount was found
reply that the amount was not recognized and stop; otherwise save the
expense (letting any error propagate) and only then send the success
reply. -/
def ingest (env : Env) (t : List Char) : Except SaveError Unit × List Event :=
  match (parse_text env t).1.price with
  | none =>
    (Except.ok (), (parse_text env t).2 ++ [Event.reply msgNotRecognized])
  | some _ =>
    match (save_expense env (parse_text env t).1).1 with
    | Except.error e =>
      (Except.error e, (parse_text env t).2 ++ (save_expense env (parse_text env t).1).2)
    | Except.ok _ =>
      (Except.ok (),
       (parse_text env t).2 ++ (save_expense env (parse_text env t).1).2
         ++ [Event.reply msgRecorded])

/-- `handle_voice` from the source: create the temporary directory and
download the voice file (both outside the `try`), then transcribe and
ingest inside `try ... finally tmp.cleanup()`.  A download failure
therefore exits before the `finally` and the explicit release is
skipped; transcription and ingestion failures reach it. -/
def handle_voice (env : Env) : Except VoiceErr Unit × List Event :=
  match env.download with
  | Except.error _ => (Except.error VoiceErr.downloadFailed, [Event.tmpAcquire])
  | Except.ok _ =>
    match env.transcript with
    | Except.error _ =>
      (Except.error VoiceErr.transcribeFailed, [Event.tmpAcquire, Event.tmpRelease])
    | Except.ok t =>
      ((ingest env t).1.mapError VoiceErr.saveFailed,
       Event.tmpAcquire :: (ingest env t).2 ++ [Event.tmpRelease])

/-!
Section: Concrete environments used to instantiate the theorems
-/

/-- The date of the source header, 09 July 2025. -/
def d0 : DateT := ⟨9, 7, 2025⟩

/-- A fully healthy environment: the July 2025 partition is configured,
the Notion write succeeds, the voice download succeeds; the GPT call
fails (exercising the summarizer fallback). -/
def envOk : Env :=
  ⟨d0, DB_IDS_BY_MONTH, fun _ => Except.error (), true, Except.ok (),
   Except.ok ("40 euro supermercato contanti".toList)⟩

/-- An environment whose partition table is empty, so the current
month resolves to no partition. -/
def envNoDb : Env :=
  ⟨d0, [], fun _ => Except.error (), true, Except.ok (), Except.ok []⟩

/-- An environment in which the Telegram voice download fails. -/
def envDownFail : Env :=
  ⟨d0, DB_IDS_BY_MONTH, fun _ => Except.error (), true, Except.error (),
   Except.error ()⟩

/-- An environment in which the download succeeds but transcription
fails. -/
def envTransFail : Env :=
  ⟨d0, DB_IDS_BY_MONTH, fun _ => Except.error (), true, Except.ok (),
   Except.error ()⟩

/-- A concrete property bundle with a present amount. -/
def props0 : ParsedData := ⟨some 5, "Carta".toList, "Altro".toList, spesa⟩

/-!
Section: Character lemmas
-/

theorem toNat_ofNatAux (n : Nat) (h : n.isValidChar) :
    (Char.ofNatAux n h).toNat = n := rfl

theorem toNat_ofNat_valid (n : Nat) (h : n.isValidChar) :
    (Char.ofNat n).toNat = n := by
  unfold Char.ofNat
  rw [dif_pos h]
  exact toNat_ofNatAux n h

theorem lowerChar_toNat (c : Char) :
    (lowerChar c).toNat =
      if 65 ≤ c.toNat ∧ c.toNat ≤ 90 then c.toNat + 32 else c.toNat := by
  unfold lowerChar
  split
  · exact toNat_ofNat_valid _ (Or.inl (by omega))
  · rfl

theorem lowerChar_eq_self (c : Char) (h : ¬ (65 ≤ c.toNat ∧ c.toNat ≤ 90)) :
    lowerChar c = c := if_neg h

theorem lowerChar_idem (c : Char) : lowerChar (lowerChar c) = lowerChar c := by
  by_cases h : 65 ≤ c.toNat ∧ c.toNat ≤ 90
  · apply lowerChar_eq_self
    rw [lowerChar_toNat c, if_pos h]
    omega
  · rw [lowerChar_eq_self c h, lowerChar_eq_self c h]

theorem isDigitC_lower (c : Char) : isDigitC (lowerChar c) = isDigitC c := by
  apply decide_eq_decide.mpr
  rw [lowerChar_toNat c]
  split
  · omega
  · exact Iff.rfl

theorem isSepC_lower (c : Char) : isSepC (lowerChar c) = isSepC c := by
  apply decide_eq_decide.mpr
  rw [lowerChar_toNat c]
  split
  · omega
  · exact Iff.rfl

theorem isSpaceC_lower (c : Char) : isSpaceC (lowerChar c) = isSpaceC c := by
  apply decide_eq_decide.mpr
  rw [lowerChar_toNat c]
  split
  · omega
  · exact Iff.rfl

theorem isEuroC_lower (c : Char) : isEuroC (lowerChar c) = isEuroC c := by
  apply decide_eq_decide.mpr
  rw [lowerChar_toNat c]
  split
  · omega
  · exact Iff.rfl

theorem isLtrE_lower (c : Char) : isLtrE (lowerChar c) = isLtrE c := by
  apply decide_eq_decide.mpr
  rw [lowerChar_idem c]

theorem isLtrU_lower (c : Char) : isLtrU (lowerChar c) = isLtrU c := by
  apply decide_eq_decide.mpr
  rw [lowerChar_idem c]

theorem isLtrR_lower (c : Char) : isLtrR (lowerChar c) = isLtrR c := by
  apply decide_eq_decide.mpr
  rw [lowerChar_idem c]

theorem lowerChar_of_digit (c : Char) (h : isDigitC c = true) : lowerChar c = c := by
  apply lowerChar_eq_self
  have h2 : 48 ≤ c.toNat ∧ c.toNat ≤ 57 := of_decide_eq_true h
  omega

theorem lowerChar_of_sep (c : Char) (h : isSepC c = true) : lowerChar c = c := by
  apply lowerChar_eq_self
  have h2 : c.toNat = 46 ∨ c.toNat = 44 := of_decide_eq_true h
  omega

theorem lowerL_idem (t : List Char) : lowerL (lowerL t) = lowerL t := by
  induction t with
  | nil => rfl
  | cons c cs ih =>
    simp only [lowerL, List.map_cons] at ih ⊢
    rw [lowerChar_idem, ih]

/-!
Section: List lemmas
-/

theorem isSubstr_correct (k t : List Char) : isSubstr k t = true ↔ k <:+: t := by
  induction t with
  | nil =>
    simp only [isSubstr, List.isEmpty_iff]
    constructor
    · intro h
      rw [h]
    · intro h
      exact List.eq_nil_of_infix_nil h
  | cons c cs ih =>
    simp only [isSubstr, Bool.or_eq_true, List.isPrefixOf_iff_prefix, ih,
      List.infix_cons_iff]

theorem find?_first {α : Type} (p : α → Bool) (l : List α) (i : Nat)
    (h : i < l.length) (hp : p (l.get ⟨i, h⟩) = true)
    (hf : ∀ j (hj : j < i), p (l.get ⟨j, Nat.lt_trans hj h⟩) = false) :
    l.find? p = some (l.get ⟨i, h⟩) := by
  induction l generalizing i with
  | nil => exact absurd h (Nat.not_lt_zero i)
  | cons a as ih =>
    match i with
    | 0 =>
      exact List.find?_cons_of_pos _ hp
    | i + 1 =>
      have h0 : p a = false := hf 0 (Nat.succ_pos i)
      rw [List.find?_cons_of_neg _ (by rw [h0]; exact Bool.false_ne_true)]
      exact ih i (Nat.lt_of_succ_lt_succ h) hp
        (fun j hj => hf (j + 1) (Nat.succ_lt_succ hj))

theorem matchKeyword_of_no_match (tbl : List (List Char × List Char))
    (deflt : List Char) (t : List Char)
    (h : ∀ kv, kv ∈ tbl → ¬ kv.1 <:+: lowerL t) :
    matchKeyword tbl deflt t = deflt := by
  unfold matchKeyword
  rw [List.find?_eq_none.mpr]
  intro kv hm
  rw [Bool.not_eq_true]
  rw [Bool.eq_false_iff]
  intro hs
  exact h kv hm ((isSubstr_correct _ _).mp hs)

theorem matchKeyword_first (tbl : List (List Char × List Char))
    (deflt : List Char) (t : List Char) (i : Nat) (h : i < tbl.length)
    (hp : (tbl.get ⟨i, h⟩).1 <:+: lowerL t)
    (hf : ∀ j (hj : j < i), ¬ (tbl.get ⟨j, Nat.lt_trans hj h⟩).1 <:+: lowerL t) :
    matchKeyword tbl deflt t = (tbl.get ⟨i, h⟩).2 := by
  unfold matchKeyword
  rw [find?_first _ tbl i h ((isSubstr_correct _ _).mpr hp)]
  intro j hj
  rw [Bool.eq_false_iff]
  intro hs
  exact hf j hj ((isSubstr_correct _ _).mp hs)

theorem matchKeyword_default_or_mem (tbl : List (List Char × List Char))
    (deflt : List Char) (t : List Char) :
    matchKeyword tbl deflt t = deflt ∨
      ∃ kv, kv ∈ tbl ∧ matchKeyword tbl deflt t = kv.2 := by
  unfold matchKeyword
  cases h : tbl.find? (fun kv => isSubstr kv.1 (lowerL t)) with
  | none => exact Or.inl rfl
  | some kv => exact Or.inr ⟨kv, List.mem_of_find?_eq_some h, rfl⟩

theorem lookupL_eq_none (l : List (List Char × List Char)) (k : List Char)
    (h : ∀ kv, kv ∈ l → kv.1 ≠ k) : lookupL l k = none := by
  induction l with
  | nil => rfl
  | cons a as ih =>
    unfold lookupL
    rw [if_neg (h a (List.mem_cons_self a as))]
    exact ih (fun kv hm => h kv (List.mem_cons_of_mem a hm))

theorem lookupL_mem_nodup (l : List (List Char × List Char)) (k v : List Char)
    (hm : (k, v) ∈ l) (hn : (l.map Prod.fst).Nodup) : lookupL l k = some v := by
  induction l with
  | nil => exact absurd hm (List.not_mem_nil (k, v))
  | cons a as ih =>
    rw [List.map_cons, List.nodup_cons] at hn
    rcases List.mem_cons.mp hm with h1 | h1
    · unfold lookupL
      rw [← h1]
      simp
    · unfold lookupL
      have hne : a.1 ≠ k := by
        intro he
        apply hn.1
        rw [he]
        exact List.mem_map_of_mem Prod.fst h1
      rw [if_neg hne]
      exact ih h1 hn.2

/-!
Section: Leftmost-match lemmas for the amount pattern
-/

theorem matchSuffix_nil : matchSuffix [] = none := rfl

theorem searchPrice_eq_none_iff (t : List Char) :
    searchPrice t = none ↔ ∀ i, matchSuffix (t.drop i) = none := by
  induction t with
  | nil =>
    constructor
    · intro _ i
      rw [List.drop_nil]
      exact matchSuffix_nil
    · intro _
      rfl
  | cons c cs ih =>
    unfold searchPrice
    cases h : matchSuffix (c :: cs) with
    | some g =>
      constructor
      · intro hc
        exact absurd hc (by simp)
      · intro hall
        have := hall 0
        rw [List.drop_zero] at this
        rw [h] at this
        exact absurd this (by simp)
    | none =>
      rw [ih]
      constructor
      · intro hall i
        match i with
        | 0 =>
          rw [List.drop_zero]
          exact h
        | i + 1 =>
          rw [List.drop_succ_cons]
          exact hall i
      · intro hall i
        have := hall (i + 1)
        rw [List.drop_succ_cons] at this
        exact this

theorem searchPrice_first (t : List Char) (i : Nat) (g : List Char)
    (h : matchSuffix (t.drop i) = some g)
    (hmin : ∀ j, j < i → matchSuffix (t.drop j) = none) :
    searchPrice t = some g := by
  induction t generalizing i with
  | nil =>
    rw [List.drop_nil] at h
    exact absurd h (by simp [matchSuffix_nil])
  | cons c cs ih =>
    unfold searchPrice
    match i with
    | 0 =>
      rw [List.drop_zero] at h
      rw [h]
    | i + 1 =>
      have h0 := hmin 0 (Nat.succ_pos i)
      rw [List.drop_zero] at h0
      rw [h0]
      rw [List.drop_succ_cons] at h
      exact ih i h (fun j hj => by
        have := hmin (j + 1) (Nat.succ_lt_succ hj)
        rw [List.drop_succ_cons] at this
        exact this)

/-!
Section: Lowercase invariance of the amount matcher
-/

theorem takeWhile_digits_lower (l : List Char) :
    (lowerL l).takeWhile isDigitC = l.takeWhile isDigitC := by
  induction l with
  | nil => rfl
  | cons c cs ih =>
    simp only [lowerL, List.map_cons, List.takeWhile_cons, isDigitC_lower]
    cases h : isDigitC c with
    | false => rfl
    | true =>
      rw [lowerChar_of_digit c h]
      simp only [lowerL] at ih
      rw [ih]

theorem dropWhile_digits_lower (l : List Char) :
    (lowerL l).dropWhile isDigitC = lowerL (l.dropWhile isDigitC) := by
  induction l with
  | nil => rfl
  | cons c cs ih =>
    simp only [lowerL, List.map_cons, List.dropWhile_cons, isDigitC_lower]
    cases h : isDigitC c with
    | false => simp
    | true =>
      simp only [lowerL] at ih
      simp [ih]

theorem matchNum_lower (l : List Char) :
    matchNum (lowerL l) = Option.map (fun p => (p.1, lowerL p.2)) (matchNum l) := by
  unfold matchNum
  rw [takeWhile_digits_lower, dropWhile_digits_lower]
  cases he : (l.takeWhile isDigitC).isEmpty with
  | true => rfl
  | false =>
    cases hr : l.dropWhile isDigitC with
    | nil => rfl
    | cons c r2 =>
      simp only [lowerL, List.map_cons, isSepC_lower]
      cases hs : isSepC c with
      | false => rfl
      | true =>
        have h1 := takeWhile_digits_lower r2
        have h2 := dropWhile_digits_lower r2
        simp only [lowerL] at h1 h2
        simp [lowerChar_of_sep c hs, h1, h2]

theorem skipSpaceOpt_lower (l : List Char) :
    skipSpaceOpt (lowerL l) = lowerL (skipSpaceOpt l) := by
  cases l with
  | nil => rfl
  | cons c rest =>
    simp only [lowerL, List.map_cons, skipSpaceOpt, isSpaceC_lower]
    cases h : isSpaceC c with
    | true => simp
    | false => simp

theorem currencyAt_lower (l : List Char) :
    currencyAt (lowerL l) = currencyAt l := by
  match l with
  | [] => rfl
  | [c] =>
    simp only [lowerL, List.map_cons, List.map_nil, currencyAt, isEuroC_lower]
  | [c, c2] =>
    simp only [lowerL, List.map_cons, List.map_nil, currencyAt, isEuroC_lower]
  | c :: c2 :: c3 :: r =>
    simp only [lowerL, List.map_cons, currencyAt, isEuroC_lower,
      isLtrE_lower, isLtrU_lower, isLtrR_lower]

theorem matchSuffix_lower (l : List Char) :
    matchSuffix (lowerL l) = matchSuffix l := by
  unfold matchSuffix
  rw [matchNum_lower]
  cases h : matchNum l with
  | none => rfl
  | some p =>
    show (if currencyAt (skipSpaceOpt (lowerL p.2)) = true then some p.1 else none) =
      if currencyAt (skipSpaceOpt p.2) = true then some p.1 else none
    rw [skipSpaceOpt_lower, currencyAt_lower]

theorem searchPrice_lower (t : List Char) :
    searchPrice (lowerL t) = searchPrice t := by
  induction t with
  | nil => rfl
  | cons c cs ih =>
    have hms := matchSuffix_lower (c :: cs)
    simp only [lowerL, List.map_cons] at hms ih ⊢
    simp only [searchPrice, hms]
    cases matchSuffix (c :: cs) with
    | some g => rfl
    | none => exact ih

theorem get_price_lower (t : List Char) : get_price (lowerL t) = get_price t := by
  unfold get_price
  rw [searchPrice_lower]

/-!
Section: Pipeline trace lemmas
-/

theorem compact_desc_snd (env : Env) (t : List Char) :
    (compact_desc env t).2 = [Event.summarize (mkPrompt t)] := by
  unfold compact_desc
  cases env.gpt (mkPrompt t) with
  | ok content => rfl
  | error e => rfl

theorem compact_desc_fst_ne_nil (env : Env) (t : List Char) :
    (compact_desc env t).1 ≠ [] := by
  unfold compact_desc
  cases env.gpt (mkPrompt t) with
  | error e =>
    show spesa ≠ []
    simp [spesa]
  | ok content =>
    show (if (capitalizeL (stripBy isPunctC (stripBy isSpaceC content))).isEmpty
      then spesa else capitalizeL (stripBy isPunctC (stripBy isSpaceC content))) ≠ []
    cases he : (capitalizeL (stripBy isPunctC (stripBy isSpaceC content))).isEmpty with
    | true =>
      simp only [if_pos]
      simp [spesa]
    | false =>
      simp only [Bool.false_eq_true, if_false]
      intro hc
      rw [hc] at he
      simp at he

theorem compact_desc_error (env : Env) (t : List Char)
    (h : env.gpt (mkPrompt t) = Except.error ()) :
    (compact_desc env t).1 = spesa := by
  unfold compact_desc
  rw [h]

theorem parse_text_price (env : Env) (t : List Char) :
    (parse_text env t).1.price = get_price t := rfl

theorem parse_text_snd (env : Env) (t : List Char) :
    (parse_text env t).2 = [Event.summarize (mkPrompt t)] :=
  compact_desc_snd env t

theorem ingest_price_none (env : Env) (t : List Char) (h : get_price t = none) :
    ingest env t =
      (Except.ok (), [Event.summarize (mkPrompt t), Event.reply msgNotRecognized]) := by
  unfold ingest
  rw [parse_text_price, h, parse_text_snd]
  rfl

theorem save_expense_db_none (env : Env) (props : ParsedData)
    (hdb : current_db_id env = none) :
    save_expense env props =
      (Except.error SaveError.configError,
       [Event.partitionLookup (monthKey env.today)]) := by
  unfold save_expense
  rw [hdb]

theorem save_expense_db_some (env : Env) (props : ParsedData) (dbId : List Char)
    (hdb : current_db_id env = some dbId) :
    save_expense env props =
      (if env.notionOk then Except.ok () else Except.error SaveError.notionError,
       [Event.partitionLookup (monthKey env.today),
        Event.notionCreate ⟨dbId, props.desc, props.price, env.today, props.cat, props.pay⟩]) := by
  unfold save_expense
  rw [hdb]
  cases env.notionOk with
  | true => rfl
  | false => rfl

theorem ingest_db_none (env : Env) (t : List Char) (q : ℚ)
    (h : get_price t = some q) (hdb : current_db_id env = none) :
    ingest env t =
      (Except.error SaveError.configError,
       [Event.summarize (mkPrompt t), Event.partitionLookup (monthKey env.today)]) := by
  unfold ingest
  rw [parse_text_price, h, save_expense_db_none env (parse_text env t).1 hdb,
    parse_text_snd]
  rfl

theorem ingest_write_ok (env : Env) (t : List Char) (q : ℚ)
    (h : get_price t = some q) (dbId : List Char)
    (hdb : current_db_id env = some dbId) (hn : env.notionOk = true) :
    ∃ r0, ingest env t =
      (Except.ok (),
       [Event.summarize (mkPrompt t), Event.partitionLookup (monthKey env.today),
        Event.notionCreate r0, Event.reply msgRecorded]) := by
  refine ⟨⟨dbId, (parse_text env t).1.desc, (parse_text env t).1.price, env.today,
    (parse_text env t).1.cat, (parse_text env t).1.pay⟩, ?_⟩
  unfold ingest
  rw [save_expense_db_some env (parse_text env t).1 dbId hdb, hn, parse_text_snd,
    parse_text_price, h]
  rfl

theorem ingest_write_fail (env : Env) (t : List Char) (q : ℚ)
    (h : get_price t = some q) (dbId : List Char)
    (hdb : current_db_id env = some dbId) (hn : env.notionOk = false) :
    ∃ r0, ingest env t =
      (Except.error SaveError.notionError,
       [Event.summarize (mkPrompt t), Event.partitionLookup (monthKey env.today),
        Event.notionCreate r0]) := by
  refine ⟨⟨dbId, (parse_text env t).1.desc, (parse_text env t).1.price, env.today,
    (parse_text env t).1.cat, (parse_text env t).1.pay⟩, ?_⟩
  unfold ingest
  rw [save_expense_db_some env (parse_text env t).1 dbId hdb, hn, parse_text_snd,
    parse_text_price, h]
  rfl

/-!
Section: Claim C1
-/

/-- Claim C1, as stated, is false on the code: for the utterance
`ciao`, amount extraction finds no amount, yet the trace of `ingest`
contains the external summarization call, because `parse_text` builds
the description before `ingest` checks the amount. -/
theorem c1_counterexample :
    get_price ("ciao".toList) = none ∧
    Event.summarize (mkPrompt ("ciao".toList)) ∈ (ingest envOk ("ciao".toList)).2 := by
  constructor
  · decide
  · decide

/-- Claim C1 (amended): when amount extraction finds no amount, the
pipeline short-circuits before any partition lookup and before any
ledger write, but not before the summarization call: the summarizer
adapter is invoked for every utterance, the amount being checked only
afterwards, in `ingest`. -/
theorem c1_amended (env : Env) (t : List Char) (h : get_price t = none) :
    Event.summarize (mkPrompt t) ∈ (ingest env t).2 ∧
    (∀ k, Event.partitionLookup k ∉ (ingest env t).2) ∧
    (∀ r, Event.notionCreate r ∉ (ingest env t).2) := by
  rw [ingest_price_none env t h]
  refine ⟨?_, ?_, ?_⟩ <;> simp

/-- Claim C1 (amended), instantiated at the utterance `ciao` in the
healthy environment. -/
theorem c1_amended_witness :
    Event.summarize (mkPrompt ("ciao".toList)) ∈ (ingest envOk ("ciao".toList)).2 ∧
    (∀ k, Event.partitionLookup k ∉ (ingest envOk ("ciao".toList)).2) ∧
    (∀ r, Event.notionCreate r ∉ (ingest envOk ("ciao".toList)).2) :=
  c1_amended envOk ("ciao".toList) (by decide)

/-!
Section: Claim C2
-/

/-- Claim C2, as stated, is false on the code: the text `12 eur`
contains no number followed by a currency marker in the specification
sense (no euro sign and no word euro or euros), yet `get_price`
returns 12, because the regex alternation `euro?` also accepts the
bare letters `eur`. -/
theorem c2_counterexample :
    specSearch ("12 eur".toList) = none ∧
    get_price ("12 eur".toList) = some 12 := by
  constructor
  · decide
  · decide

/-- Claim C2 (amended): with the currency marker the code actually
accepts (the euro sign, or the letters `eur` with an optional trailing
`o`, case-insensitive, after at most one whitespace character),
`get_price` returns `none` exactly when the pattern matches at no
position of the text, and otherwise returns the parsed capture group of
the leftmost matching position, with the separator normalized. -/
theorem c2_amended (t : List Char) :
    (get_price t = none ↔ ∀ i, matchSuffix (t.drop i) = none) ∧
    (∀ i g, matchSuffix (t.drop i) = some g →
      (∀ j, j < i → matchSuffix (t.drop j) = none) →
      get_price t = some (parseAmount g)) := by
  constructor
  · unfold get_price
    rw [Option.map_eq_none']
    exact searchPrice_eq_none_iff t
  · intro i g h hmin
    unfold get_price
    rw [searchPrice_first t i g h hmin]
    rfl

/-- Claim C2 (amended), instantiated at the text `5€`. -/
theorem c2_amended_witness :
    get_price ("5€".toList) = some (parseAmount ['5']) :=
  (c2_amended ("5€".toList)).2 0 ['5'] (by decide)
    (fun j hj => absurd hj (Nat.not_lt_zero j))

/-!
Section: Claim C3
-/

/-- Claim C3: `get_category` returns the category bound to the first
keyword, in table order, occurring as a substring of the lowercased
text, and `Altro` when none does; `get_payment` is the identical
algorithm over the payment table with default `Carta`; and neither
classifier ever returns a value outside its table plus default. -/
theorem c3 (t : List Char) :
    ((∀ kv, kv ∈ CATEGORY_KEYWORDS → ¬ kv.1 <:+: lowerL t) →
      get_category t = "Altro".toList) ∧
    (∀ i (h : i < CATEGORY_KEYWORDS.length),
      (CATEGORY_KEYWORDS.get ⟨i, h⟩).1 <:+: lowerL t →
      (∀ j (hj : j < i), ¬ (CATEGORY_KEYWORDS.get ⟨j, Nat.lt_trans hj h⟩).1 <:+: lowerL t) →
      get_category t = (CATEGORY_KEYWORDS.get ⟨i, h⟩).2) ∧
    ((∀ kv, kv ∈ PAYMENT_KEYWORDS → ¬ kv.1 <:+: lowerL t) →
      get_payment t = "Carta".toList) ∧
    (∀ i (h : i < PAYMENT_KEYWORDS.length),
      (PAYMENT_KEYWORDS.get ⟨i, h⟩).1 <:+: lowerL t →
      (∀ j (hj : j < i), ¬ (PAYMENT_KEYWORDS.get ⟨j, Nat.lt_trans hj h⟩).1 <:+: lowerL t) →
      get_payment t = (PAYMENT_KEYWORDS.get ⟨i, h⟩).2) ∧
    (get_category t = "Altro".toList ∨
      ∃ kv, kv ∈ CATEGORY_KEYWORDS ∧ get_category t = kv.2) ∧
    (get_payment t = "Carta".toList ∨
      ∃ kv, kv ∈ PAYMENT_KEYWORDS ∧ get_payment t = kv.2) := by
  refine ⟨?_, ?_, ?_, ?_, ?_, ?_⟩
  · intro h
    exact matchKeyword_of_no_match CATEGORY_KEYWORDS _ t h
  · intro i h hp hf
    exact matchKeyword_first CATEGORY_KEYWORDS _ t i h hp hf
  · intro h
    exact matchKeyword_of_no_match PAYMENT_KEYWORDS _ t h
  · intro i h hp hf
    exact matchKeyword_first PAYMENT_KEYWORDS _ t i h hp hf
  · exact matchKeyword_default_or_mem CATEGORY_KEYWORDS _ t
  · exact matchKeyword_default_or_mem PAYMENT_KEYWORDS _ t

/-- Claim C3, instantiated: in `vado in palestra in taxi` the first
matching category keyword in table order is `palestra` (index 11), so
the category is its binding, even though `taxi` also occurs later in
the table. -/
theorem c3_witness :
    get_category ("vado in palestra in taxi".toList) =
      (CATEGORY_KEYWORDS.get ⟨11, by decide⟩).2 :=
  (c3 ("vado in palestra in taxi".toList)).2.1 11 (by decide) (by decide) (by decide)

/-!
Section: Claim C4
-/

/-- Claim C4: when no amount is recognized, `ingest` terminates
normally with the amount-not-recognized reply, writes no ledger
record, and performs no partition lookup. -/
theorem c4 (env : Env) (t : List Char) (h : get_price t = none) :
    (ingest env t).1 = Except.ok () ∧
    Event.reply msgNotRecognized ∈ (ingest env t).2 ∧
    (∀ r, Event.notionCreate r ∉ (ingest env t).2) ∧
    (∀ k, Event.partitionLookup k ∉ (ingest env t).2) := by
  rw [ingest_price_none env t h]
  refine ⟨rfl, ?_, ?_, ?_⟩ <;> simp

/-- Claim C4, instantiated at the no-currency utterance of the spec
scenario 2. -/
theorem c4_witness :
    (ingest envOk ("mi sono comprato un caffè".toList)).1 = Except.ok () ∧
    Event.reply msgNotRecognized ∈ (ingest envOk ("mi sono comprato un caffè".toList)).2 ∧
    (∀ r, Event.notionCreate r ∉ (ingest envOk ("mi sono comprato un caffè".toList)).2) ∧
    (∀ k, Event.partitionLookup k ∉ (ingest envOk ("mi sono comprato un caffè".toList)).2) :=
  c4 envOk ("mi sono comprato un caffè".toList) (by decide)

/-!
Section: Claim C5
-/

/-- Claim C5: when the current month is absent from the partition
table, `save_expense` fails with the configuration error and creates no
record; through `ingest` (for any text with a recognized amount) the
error propagates to the caller rather than being swallowed. -/
theorem c5 (env : Env) (props : ParsedData) (t : List Char)
    (hdb : current_db_id env = none) :
    (save_expense env props).1 = Except.error SaveError.configError ∧
    (∀ r, Event.notionCreate r ∉ (save_expense env props).2) ∧
    (get_price t ≠ none →
      (ingest env t).1 = Except.error SaveError.configError ∧
      ∀ r, Event.notionCreate r ∉ (ingest env t).2) := by
  rw [save_expense_db_none env props hdb]
  refine ⟨rfl, by simp, ?_⟩
  intro hp
  cases hq : get_price t with
  | none => exact absurd hq hp
  | some q =>
    rw [ingest_db_none env t q hq hdb]
    exact ⟨rfl, by simp⟩

/-- Claim C5, instantiated in an environment with an empty partition
table and a text with a valid amount. -/
theorem c5_witness :
    (save_expense envNoDb props0).1 = Except.error SaveError.configError ∧
    (ingest envNoDb ("5€".toList)).1 = Except.error SaveError.configError :=
  ⟨(c5 envNoDb props0 ("5€".toList) (by decide)).1,
   ((c5 envNoDb props0 ("5€".toList) (by decide)).2.2 (by decide)).1⟩

/-!
Section: Claim C6
-/

/-- Claim C6: the summarizer adapter is total by construction (the
embedding of the `try/except` body); on any error of the external call
it returns the fixed fallback `Spesa`, and its result is never the
empty string. -/
theorem c6 (env : Env) (t : List Char) :
    (env.gpt (mkPrompt t) = Except.error () → (compact_desc env t).1 = spesa) ∧
    (compact_desc env t).1 ≠ [] :=
  ⟨compact_desc_error env t, compact_desc_fst_ne_nil env t⟩

/-- Claim C6, instantiated in the environment whose GPT call fails. -/
theorem c6_witness :
    (compact_desc envOk ("ciao".toList)).1 = spesa ∧
    (compact_desc envOk ("ciao".toList)).1 ≠ [] :=
  ⟨(c6 envOk ("ciao".toList)).1 rfl, (c6 envOk ("ciao".toList)).2⟩

/-!
Section: Claim C7
-/

/-- Claim C7: the partition router formats the current date as
`MM-YYYY` and performs an exact-match lookup: it returns `none` when
no table key equals the derived key, the mapped identifier when the
key is present (the table keys being distinct), and the same result
for any two environments sharing the table and the calendar month. -/
theorem c7 (e1 e2 : Env) :
    current_db_id e1 = lookupL e1.dbIds (monthKey e1.today) ∧
    ((∀ kv, kv ∈ e1.dbIds → kv.1 ≠ monthKey e1.today) → current_db_id e1 = none) ∧
    (∀ v, (monthKey e1.today, v) ∈ e1.dbIds → (e1.dbIds.map Prod.fst).Nodup →
      current_db_id e1 = some v) ∧
    (e1.dbIds = e2.dbIds → e1.today.month = e2.today.month →
      e1.today.year = e2.today.year → current_db_id e1 = current_db_id e2) := by
  refine ⟨rfl, ?_, ?_, ?_⟩
  · intro h
    exact lookupL_eq_none _ _ h
  · intro v hm hn
    exact lookupL_mem_nodup _ _ _ hm hn
  · intro hdb hm hy
    unfold current_db_id monthKey
    rw [hdb, hm, hy]

/-- Claim C7, instantiated on the source partition table at the date
of the source header (July 2025). -/
theorem c7_witness :
    current_db_id envOk = some ("22b2ddb994ba81dba631d8415085778b".toList) :=
  (c7 envOk envOk).2.2.1 ("22b2ddb994ba81dba631d8415085778b".toList)
    (by decide) (by decide)

/-!
Section: Claim C8
-/

/-- Claim C8: each run of `ingest` reports at most the two outcomes:
on normal termination the trace contains exactly one reply, which is
the not-recognized or the recorded message; on an error no reply at
all is sent (so never a silent success); and the recorded reply occurs
only when the Notion write succeeded, immediately after the create
call. -/
theorem c8 (env : Env) (t : List Char) :
    ((ingest env t).1 = Except.ok () →
      repliesOf (ingest env t).2 = [msgNotRecognized] ∨
      repliesOf (ingest env t).2 = [msgRecorded]) ∧
    (∀ e, (ingest env t).1 = Except.error e → repliesOf (ingest env t).2 = []) ∧
    (Event.reply msgRecorded ∈ (ingest env t).2 →
      env.notionOk = true ∧
      ∃ r0 pre, (ingest env t).2 = pre ++ [Event.notionCreate r0, Event.reply msgRecorded]) := by
  have hmsg : msgRecorded ≠ msgNotRecognized := by decide
  cases hp : get_price t with
  | none =>
    rw [ingest_price_none env t hp]
    refine ⟨fun _ => Or.inl rfl, ?_, ?_⟩
    · intro e he
      exact absurd he (by simp)
    · intro hm
      simp only [List.mem_cons, List.mem_singleton, List.not_mem_nil, or_false] at hm
      rcases hm with hm | hm
      · exact absurd hm (by simp)
      · rw [Event.reply.injEq] at hm
        exact absurd hm hmsg
  | some q =>
    cases hdb : current_db_id env with
    | none =>
      rw [ingest_db_none env t q hp hdb]
      refine ⟨?_, fun e _ => rfl, ?_⟩
      · intro he
        exact absurd he (by simp)
      · intro hm
        exact absurd hm (by simp)
    | some dbId =>
      cases hn : env.notionOk with
      | true =>
        obtain ⟨r0, hr⟩ := ingest_write_ok env t q hp dbId hdb hn
        rw [hr]
        refine ⟨fun _ => Or.inr rfl, ?_, ?_⟩
        · intro e he
          exact absurd he (by simp)
        · intro _
          exact ⟨rfl, r0,
            [Event.summarize (mkPrompt t), Event.partitionLookup (monthKey env.today)],
            rfl⟩
      | false =>
        obtain ⟨r0, hr⟩ := ingest_write_fail env t q hp dbId hdb hn
        rw [hr]
        refine ⟨?_, fun e _ => rfl, ?_⟩
        · intro he
          exact absurd he (by simp)
        · intro hm
          exact absurd hm (by simp)

/-- Claim C8, instantiated at the spec scenario 1 text in the healthy
environment: the single reported outcome. -/
theorem c8_witness :
    repliesOf (ingest envOk ("Pagato 12.50€ al bar con carta".toList)).2 =
      [msgNotRecognized] ∨
    repliesOf (ingest envOk ("Pagato 12.50€ al bar con carta".toList)).2 =
      [msgRecorded] :=
  (c8 envOk ("Pagato 12.50€ al bar con carta".toList)).1 rfl

/-!
Section: Claim C9
-/

/-- Claim C9, as stated, is false on the code: in an environment where
the staging download itself fails, the temporary directory is acquired
but the explicit release in the `finally` block is never reached,
because the download happens before the `try`. -/
theorem c9_counterexample :
    Event.tmpRelease ∉ (handle_voice envDownFail).2 := by
  decide

/-- Claim C9 (amended): once the staging download has succeeded, the
staged audio payload is released on every exit path, regardless of
success or failure of transcription, the downstream pipeline and the
write. -/
theorem c9_amended (env : Env) (h : env.download = Except.ok ()) :
    Event.tmpRelease ∈ (handle_voice env).2 := by
  unfold handle_voice
  rw [h]
  cases env.transcript with
  | error e => simp
  | ok t => simp

/-- Claim C9 (amended), instantiated in the environment whose
transcription fails after a successful download. -/
theorem c9_amended_witness :
    Event.tmpRelease ∈ (handle_voice envTransFail).2 :=
  c9_amended envTransFail rfl

/-!
Section: Claim C10
-/

/-- Claim C10: the three lexicon functions are invariant under
lowercasing of the input text. -/
theorem c10 (t : List Char) :
    get_category (lowerL t) = get_category t ∧
    get_payment (lowerL t) = get_payment t ∧
    get_price (lowerL t) = get_price t := by
  refine ⟨?_, ?_, get_price_lower t⟩
  · unfold get_category matchKeyword
    rw [lowerL_idem]
  · unfold get_payment matchKeyword
    rw [lowerL_idem]

end BotSpese
